import Mathlib

/-!
Shallow embedding of the pytroll-active-fire-runner orchestration code
(`bin/viirs_af_runner.py`) together with the timestamp-extraction utility
expected by `viirs_active_fires/tests/test_utils.py`.

Python dictionaries are embedded as records whose fields cover exactly the
keys the runner reads or writes; an absent key is `none`.  Python exceptions
are embedded as `Except PyErr`: code with no try/except around a raising call
propagates the error, mirroring CPython semantics.  External collaborators
(the CSPP subprocess wrapper, the result-file collector, the timestamp
parser) are passed in as function parameters where the runner calls them.
-/

namespace ActiveFires

/-- A Python exception value (restricted to the kinds the runner can raise). -/
inductive PyErr where
  | attributeError (msg : String)
  | keyError (key : String)
  | nameError (msg : String)
  | other (msg : String)
deriving Repr, DecidableEq

/-- A naive datetime (what Python's `datetime.datetime` carries, to seconds). -/
structure DT where
  year : Nat
  month : Nat
  day : Nat
  hour : Nat
  minute : Nat
  second : Nat
deriving Repr, DecidableEq

/-- One entry of a message's `dataset` list: `{'uri': ..., 'uid': ...}`. -/
structure DatasetEntry where
  uri : String
  uid : String
deriving Repr, DecidableEq

/-- The message payload dict (`msg.data`), restricted to the keys the runner
reads or writes.  `none` means the key is absent from the dict. -/
structure MsgData where
  platform_name : Option String := none
  sensor : Option String := none
  orbit_number : Option Int := none
  dataset : Option (List DatasetEntry) := none
  orig_orbit_number : Option Int := none
  format : Option String := none
  typeKey : Option String := none
  data_processing_level : Option String := none
  start_time : Option DT := none
  end_time : Option DT := none
deriving Repr, DecidableEq

/-- A posttroll message: its `type` attribute and its `data` payload dict. -/
structure Msg where
  msgType : String
  data : MsgData
deriving Repr, DecidableEq

/- ### Model of `urllib.parse.urlparse(...).path`

`run` only uses `urlparse(sdr['uri']).path`; the model below follows
CPython's `urlsplit`: strip a well-formed `scheme:` prefix, then a
`//netloc` component (ended by `/`, `?` or `#`), then a `#fragment`
and a `?query` suffix; what remains is the path. -/

/-- Characters allowed in a URL scheme after the initial letter. -/
def isSchemeChar (c : Char) : Bool :=
  c.isAlphanum || c = '+' || c = '-' || c = '.'

/-- Strip a leading `scheme:` when the part before the first `:` is a
well-formed scheme (nonempty, starts with a letter, scheme chars only). -/
def splitScheme (l : List Char) : List Char :=
  let pre := l.takeWhile (fun c => c ≠ ':')
  if pre.length < l.length &&
      !pre.isEmpty &&
      (match pre.head? with | some c => c.isAlpha | none => false) &&
      pre.all isSchemeChar then
    l.drop (pre.length + 1)
  else
    l

/-- Strip a leading `//netloc`; the netloc ends before the first `/`, `?`
or `#`, which stays in the remainder. -/
def stripNetloc (l : List Char) : List Char :=
  match l with
  | '/' :: '/' :: rest => rest.dropWhile (fun c => !(c = '/' || c = '?' || c = '#'))
  | _ => l

/-- Strip a `#fragment` suffix. -/
def stripFragment (l : List Char) : List Char :=
  l.takeWhile (fun c => c ≠ '#')

/-- Strip a `?query` suffix. -/
def stripQuery (l : List Char) : List Char :=
  l.takeWhile (fun c => c ≠ '?')

/-- `urlparse(uri).path`: the filesystem path component of a URI, with
scheme and host discarded. -/
def urlparsePath (s : String) : String :=
  String.mk (stripQuery (stripFragment (stripNetloc (splitScheme s.data))))

/-- `os.path.basename`: everything after the last `/` of the path. -/
def basename (s : String) : String :=
  String.mk ((s.data.reverse.takeWhile (fun c => c ≠ '/')).reverse)

/-- `urlunsplit(('ssh', host, path, '', ''))`: CPython prefixes a non-empty
relative path with `/` when a netloc is present. -/
def urlunsplitSsh (host path : String) : String :=
  "ssh://" ++ host ++
    (match path.data with
     | [] => ""
     | '/' :: _ => path
     | _ => "/" ++ path)

/- ### The processor state (`ViirsActiveFiresProcessor`)

The thread pool's pending `AsyncResult` list `self.cspp_results` is embedded
as the list of submitted jobs' argument tuples (each `apply_async(spawn_cspp,
(self.sdr_files,))` records `self.sdr_files`). -/

/-- The mutable attributes of `ViirsActiveFiresProcessor`. -/
structure ProcState where
  orbit_number : Int
  platform_name : String
  sensor : Option String
  cspp_results : List (List String)
  pass_start_time : Option DT
  result_files : List String
  sdr_files : List String
  result_home : Option String
  publish_topic : List String
  site : String
  environment : String
  message_data : Option MsgData
deriving Repr, DecidableEq

/-- `ViirsActiveFiresProcessor.__init__(ncpus)`: fields read from OPTIONS are
passed in as parameters. -/
def mkProcessor (result_home : Option String) (publish_topic : List String)
    (site : String) (environment : String) : ProcState :=
  { orbit_number := 1  -- Initialised orbit number
    platform_name := "unknown"
    sensor := none
    cspp_results := []
    pass_start_time := none
    result_files := []
    sdr_files := []
    result_home := result_home
    publish_topic := publish_topic
    site := site
    environment := environment
    message_data := none }

/-- `ViirsActiveFiresProcessor.initialise`. -/
def initialise (s : ProcState) : ProcState :=
  { s with
    cspp_results := []
    pass_start_time := none
    result_files := []
    sdr_files := [] }

/-- `ViirsActiveFiresProcessor.run(msg)`.

The source's guard chain is `if msg: LOG.debug(...)` followed by two
`elif msg and ...` branches.  For a truthy message the first branch fires
(it only logs), so both `elif` branches — the missing-field check and the
platform/sensor filter — are skipped; for `msg = None` every guard is falsy
and control falls through to `msg.data['platform_name']`, which raises
`AttributeError` on `None`.  The return value `true` means "ignore, keep
consuming"; `false` means a job was submitted. -/
def run (self : ProcState) (msg : Option Msg) : Except PyErr (ProcState × Bool) :=
  match msg with
  | none =>
      -- line 114: str(msg.data['platform_name']) with msg = None
      .error (.attributeError "NoneType object has no attribute data")
  | some m =>
      match m.data.platform_name with
      | none => .error (.keyError "platform_name")
      | some pn =>
        match m.data.sensor with
        | none => .error (.keyError "sensor")
        | some sn =>
          let self := { self with
                        platform_name := pn
                        sensor := some sn
                        message_data := some m.data }
          if m.msgType ≠ "dataset" then
            .ok (self, true)
          else
            match m.data.dataset with
            | none => .error (.keyError "dataset")
            | some sdr_dataset =>
              if sdr_dataset.length < 1 then
                .ok (self, true)
              else
                let sdr_files := sdr_dataset.map (fun sdr => urlparsePath sdr.uri)
                let self := { self with
                              sdr_files := sdr_files
                              cspp_results := self.cspp_results ++ [sdr_files] }
                .ok (self, false)

/-- The inner message-consumption loop of `viirs_active_fire_runner`:
`for msg in subscr.recv(timeout=300): status = run(msg); if not status: break`.
Returns the state at loop exit and whether the loop exited via `break`. -/
def collectingLoop (s : ProcState) : List (Option Msg) → Except PyErr (ProcState × Bool)
  | [] => .ok (s, false)
  | m :: rest =>
      match run s m with
      | .error e => .error e
      | .ok (s', status) =>
          if status then collectingLoop s' rest else .ok (s', true)

/-- `spawn_cspp(sdrfiles)`: invoke CSPP, collect the result files; the empty
collection is reported as `(working_dir, [])`.  There is no try/except, so an
exception from either collaborator propagates. -/
def spawn_cspp (run_cspp_viirs_af : List String → Except PyErr String)
    (get_active_fire_result_files : String → Except PyErr (List String))
    (sdrfiles : List String) : Except PyErr (String × List String) :=
  match run_cspp_viirs_af sdrfiles with
  | .error e => .error e
  | .ok working_dir =>
      match get_active_fire_result_files working_dir with
      | .error e => .error e
      | .ok result_files =>
          if result_files.length = 0 then
            .ok (working_dir, [])
          else
            .ok (working_dir, result_files)

/-- The reaping loop `for res in self.cspp_results: ... = res.get()`:
`AsyncResult.get()` re-raises an exception stored by the worker, so the
first failed job's exception propagates out of the loop. -/
def drainResults : List (Except PyErr (String × List String)) →
    Except PyErr (List (String × List String))
  | [] => .ok []
  | r :: rest =>
      match r with
      | .error e => .error e
      | .ok v =>
          match drainResults rest with
          | .error e => .error e
          | .ok vs => .ok (v :: vs)

/- ### `publish_af` -/

/-- The keyword arguments `publish_af` is called with (`none` = absent). -/
structure Kwargs where
  orbit : Option Int := none
  publish_topic : Option (List String) := none
  site : Option String := none
  environment : Option String := none
deriving Repr, DecidableEq

/-- `kwargs.get('publish_topic', 'Unknown')` falls back to the *string*
`'Unknown'`; `for topic in ...` then iterates its characters. -/
def unknownTopicDefault : List String :=
  ["U", "n", "k", "n", "o", "w", "n"]

/-- An encoded outgoing posttroll `Message(topic, "dataset", to_send)`. -/
structure OutMsg where
  topic : String
  msgType : String
  payload : MsgData
deriving Repr, DecidableEq

/-- The observable outcome of one `publish_af` call: the exception (if one
was raised), every message built by the topic loop, every message actually
passed to `publisher.send`, and the caller's `mda` dict after the call. -/
structure PubResult where
  err : Option PyErr
  constructed : List OutMsg
  sent : List OutMsg
  mda_after : MsgData
deriving Repr, DecidableEq

/-- `publish_af(publisher, result_files, mda, **kwargs)`.

`get_edr_times` lives in the external `active_fires.utils` module and is
passed in as a parameter (`none` = it raised); `hostname` stands for
`socket.gethostname()`.  The function works on `to_send = mda.copy()`; the
caller's dict is returned unchanged in `mda_after`.  Note the topic loop
rebinds `msg` each iteration and the single `publisher.send(msg)` sits after
the loop, so only the last-built message is sent (with no topics, `msg` is
unbound and `send` raises `NameError`). -/
def publish_af (get_edr_times : String → Option (DT × DT)) (hostname : String)
    (result_files : List String) (mda : MsgData) (kwargs : Kwargs) : PubResult :=
  if result_files.isEmpty then
    { err := none, constructed := [], sent := [], mda_after := mda }
  else
    -- to_send = mda.copy(); del to_send['dataset'] (KeyError caught, logged)
    let to_send := { mda with dataset := none }
    match (match kwargs.orbit with
           | none => Except.ok to_send
           | some orb =>
             -- to_send["orig_orbit_number"] = to_send["orbit_number"]
             match to_send.orbit_number with
             | none => Except.error (PyErr.keyError "orbit_number")
             | some orig =>
                 Except.ok { to_send with
                             orig_orbit_number := some orig
                             orbit_number := some orb }) with
    | .error e => { err := some e, constructed := [], sent := [], mda_after := mda }
    | .ok to_send =>
      let entries := result_files.map (fun f =>
        ({ uri := urlunsplitSsh hostname f, uid := basename f } : DatasetEntry))
      let to_send := { to_send with dataset := some entries }
      let topics := kwargs.publish_topic.getD unknownTopicDefault
      let site := kwargs.site.getD "unknown"
      let environment := kwargs.environment.getD "unknown"
      let to_send := { to_send with
                       format := some "EDR"
                       typeKey := some "NETCDF"
                       data_processing_level := some "2" }
      -- `filename` keeps its value from the last dataset-loop iteration
      match result_files.getLast? with
      | none =>
          { err := some (.other "unreachable")
            constructed := []
            sent := []
            mda_after := mda }
      | some lastf =>
        match get_edr_times (basename lastf) with
        | none =>
            { err := some (.other "get_edr_times raised")
              constructed := []
              sent := []
              mda_after := mda }
        | some (st, et) =>
          let to_send := { to_send with start_time := some st, end_time := some et }
          let constructed := topics.map (fun topic =>
            ({ topic := String.intercalate "/"
                 ["", topic, "EDR", "2", site, environment, "polar", "direct_readout"]
               msgType := "dataset"
               payload := to_send } : OutMsg))
          match constructed.getLast? with
          | none =>
              -- empty topic list: `msg` was never bound; str(msg) raises
              { err := some (.nameError "msg")
                constructed := []
                sent := []
                mda_after := mda }
          | some m =>
              { err := none
                constructed := constructed
                sent := [m]
                mda_after := mda }

/-- The `publish_af` call the runner's draining phase makes for one reaped
job (`viirs_active_fire_runner`, lines 255–260): every keyword argument is
present and taken from the processor. -/
def runnerPublishCall (get_edr_times : String → Option (DT × DT)) (hostname : String)
    (proc : ProcState) (af_files : List String) (mda : MsgData) : PubResult :=
  publish_af get_edr_times hostname af_files mda
    { orbit := some proc.orbit_number
      publish_topic := some proc.publish_topic
      environment := some proc.environment
      site := some proc.site }

/- ### Timestamp extraction (`active_fires.utils.get_edr_times`)

The utility module is not part of this repository checkout; only its unit
test (`viirs_active_fires/tests/test_utils.py`) and its call from
`publish_af` are.  The definitions below are therefore a model of the
missing function, built from the spec's description of the fixed filename
grammar and pinned by the test's expected values. -/

/-- Split a character list at every occurrence of `c` (Python `.split(c)`). -/
def splitCh (c : Char) : List Char → List (List Char)
  | [] => [[]]
  | x :: xs =>
      match splitCh c xs with
      | [] => [[]]
      | h :: t => if x = c then [] :: h :: t else (x :: h) :: t

/-- Parse a nonempty all-digit character list as a decimal number. -/
def parseDigits (l : List Char) : Option Nat :=
  if !l.isEmpty && l.all Char.isDigit then
    some (l.foldl (fun a c => a * 10 + (c.toNat - 48)) 0)
  else
    none

/-- Modelled from the spec: `active_fires.utils.get_edr_times` is absent from
this checkout ("timestamp extraction parses a fixed filename grammar encoding
a start time and end time", spec §6).  The grammar is the one of
`AFIMG_npp_d20210413_t0916186_e0917428_b49018_c..._cspp_dev.txt`: after
`os.path.basename`, the `_`-separated tokens 2, 3 and 4 carry
`d` + YYYYMMDD, `t` + HHMMSS + tenths, `e` + HHMMSS + tenths; the tenths
digit is discarded and both times share the date token, per the repository's
`test_get_edr_times`. -/
def get_edr_times (filename : String) : Option (DT × DT) :=
  match splitCh '_' (basename filename).data with
  | _ :: _ :: dtok :: stok :: etok :: _ =>
      if dtok.head? = some 'd' ∧ stok.head? = some 't' ∧ etok.head? = some 'e' then
        let dds := dtok.tail
        let sds := stok.tail
        let eds := etok.tail
        (do
          let y ← parseDigits (dds.take 4)
          let mo ← parseDigits ((dds.drop 4).take 2)
          let dy ← parseDigits ((dds.drop 6).take 2)
          let h1 ← parseDigits (sds.take 2)
          let mi1 ← parseDigits ((sds.drop 2).take 2)
          let s1 ← parseDigits ((sds.drop 4).take 2)
          let h2 ← parseDigits (eds.take 2)
          let mi2 ← parseDigits ((eds.drop 2).take 2)
          let s2 ← parseDigits ((eds.drop 4).take 2)
          pure (⟨y, mo, dy, h1, mi1, s1⟩, ⟨y, mo, dy, h2, mi2, s2⟩))
      else none
  | _ => none

/- ### Encoder for the artifact-filename grammar (used to state the
round-trip property of claim C8). -/

/-- The `w` low decimal digits of `n`, most significant first. -/
def toDigits : Nat → Nat → List Nat
  | 0, _ => []
  | w + 1, n => toDigits w (n / 10) ++ [n % 10]

/-- The character for one decimal digit. -/
def digitChar : Nat → Char
  | 0 => '0' | 1 => '1' | 2 => '2' | 3 => '3' | 4 => '4'
  | 5 => '5' | 6 => '6' | 7 => '7' | 8 => '8' | _ => '9'

/-- Zero-padded `w`-digit decimal rendering of `n`. -/
def pad (w n : Nat) : List Char :=
  (toDigits w n).map digitChar

/-- Join tokens with `c` between them (inverse of `splitCh`). -/
def joinCh (c : Char) : List (List Char) → List Char
  | [] => []
  | [t] => t
  | t :: ts => t ++ c :: joinCh c ts

/-- A filename of the fixed artifact grammar: prefix and satellite tokens, a
`d`-date token (the shared date of both times, taken from `t1`), `t`-start
and `e`-end time tokens (HHMMSS plus a tenths digit `f1`/`f2`), and arbitrary
trailing tokens. -/
def mkAFFilename (pfx sat : List Char) (t1 t2 : DT) (f1 f2 : Nat)
    (rest : List (List Char)) : String :=
  String.mk (joinCh '_'
    ([pfx, sat,
      'd' :: (pad 4 t1.year ++ (pad 2 t1.month ++ pad 2 t1.day)),
      't' :: (pad 2 t1.hour ++ (pad 2 t1.minute ++ (pad 2 t1.second ++ pad 1 f1))),
      'e' :: (pad 2 t2.hour ++ (pad 2 t2.minute ++ (pad 2 t2.second ++ pad 1 f2)))]
     ++ rest))

/- ### Sample values used by witnesses -/

/-- A freshly constructed processor with a typical configuration. -/
def sampleProc : ProcState :=
  mkProcessor (some "/san1/polar_out/direct_readout") ["AF"] "norrkoping" "test"

/-- A qualifying VIIRS dataset message (spec §8, scenario A). -/
def sampleViirsMsg : Msg :=
  { msgType := "dataset"
    data := { platform_name := some "Suomi-NPP"
              sensor := some "viirs"
              orbit_number := some 42
              dataset := some [{ uri := "file:///a/SVM01.h5", uid := "SVM01.h5" }] } }

/-- The processor state after `run` on `sampleViirsMsg`. -/
def sampleProcAfter : ProcState :=
  { orbit_number := 1
    platform_name := "Suomi-NPP"
    sensor := some "viirs"
    cspp_results := [["/a/SVM01.h5"]]
    pass_start_time := none
    result_files := []
    sdr_files := ["/a/SVM01.h5"]
    result_home := some "/san1/polar_out/direct_readout"
    publish_topic := ["AF"]
    site := "norrkoping"
    environment := "test"
    message_data := some sampleViirsMsg.data }

/-- A stand-in for the external timestamp parser used in witnesses. -/
def sampleEdrTimes : String → Option (DT × DT) :=
  fun _ => some (⟨2021, 4, 13, 9, 16, 18⟩, ⟨2021, 4, 13, 9, 17, 42⟩)

/-- The message the runner's draining phase sends for one delivered artifact
`/tmp/afwork/AFIMG_npp.txt` of the `sampleViirsMsg` granule. -/
def sampleSentMsg : OutMsg :=
  { topic := "/AF/EDR/2/norrkoping/test/polar/direct_readout"
    msgType := "dataset"
    payload := { platform_name := some "Suomi-NPP"
                 sensor := some "viirs"
                 orbit_number := some 1
                 dataset := some [{ uri := "ssh://afhost/tmp/afwork/AFIMG_npp.txt"
                                    uid := "AFIMG_npp.txt" }]
                 orig_orbit_number := some 42
                 format := some "EDR"
                 typeKey := some "NETCDF"
                 data_processing_level := some "2"
                 start_time := some ⟨2021, 4, 13, 9, 16, 18⟩
                 end_time := some ⟨2021, 4, 13, 9, 17, 42⟩ } }

/- ## Helper lemmas -/

theorem run_none_eq (s : ProcState) :
    run s none = .error (.attributeError "NoneType object has no attribute data") := rfl

theorem run_ok_cspp {s : ProcState} {m : Option Msg} {s' : ProcState} {b : Bool}
    (h : run s m = .ok (s', b)) :
    s'.cspp_results = if b then s.cspp_results
                      else s.cspp_results ++ [s'.sdr_files] := by
  cases m with
  | none => exact absurd h (by simp [run])
  | some msg =>
    simp only [run] at h
    cases hp : msg.data.platform_name with
    | none => simp only [hp] at h; exact Except.noConfusion h
    | some pn =>
      simp only [hp] at h
      cases hs : msg.data.sensor with
      | none => simp only [hs] at h; exact Except.noConfusion h
      | some sn =>
        simp only [hs] at h
        by_cases ht : msg.msgType ≠ "dataset"
        · rw [if_pos ht] at h
          cases h
          simp
        · rw [if_neg ht] at h
          cases hd : msg.data.dataset with
          | none => simp only [hd] at h; exact Except.noConfusion h
          | some ds =>
            simp only [hd] at h
            by_cases hl : ds.length < 1
            · rw [if_pos hl] at h
              cases h
              simp
            · rw [if_neg hl] at h
              cases h
              simp

theorem run_ok_orbit {s : ProcState} {m : Option Msg} {s' : ProcState} {b : Bool}
    (h : run s m = .ok (s', b)) : s'.orbit_number = s.orbit_number := by
  cases m with
  | none => exact absurd h (by simp [run])
  | some msg =>
    simp only [run] at h
    cases hp : msg.data.platform_name with
    | none => simp only [hp] at h; exact Except.noConfusion h
    | some pn =>
      simp only [hp] at h
      cases hs : msg.data.sensor with
      | none => simp only [hs] at h; exact Except.noConfusion h
      | some sn =>
        simp only [hs] at h
        by_cases ht : msg.msgType ≠ "dataset"
        · rw [if_pos ht] at h; cases h; rfl
        · rw [if_neg ht] at h
          cases hd : msg.data.dataset with
          | none => simp only [hd] at h; exact Except.noConfusion h
          | some ds =>
            simp only [hd] at h
            by_cases hl : ds.length < 1
            · rw [if_pos hl] at h; cases h; rfl
            · rw [if_neg hl] at h; cases h; rfl

theorem collectingLoop_cons {s : ProcState} {m : Option Msg} {rest : List (Option Msg)}
    {s' : ProcState} {b : Bool} (h : run s m = .ok (s', b)) :
    collectingLoop s (m :: rest) =
      if b then collectingLoop s' rest else .ok (s', true) := by
  conv_lhs => rw [collectingLoop]
  rw [h]

theorem collectingLoop_ok_cspp {msgs : List (Option Msg)} :
    ∀ {s s' : ProcState} {broke : Bool},
      collectingLoop s msgs = .ok (s', broke) →
      s'.cspp_results.length =
        s.cspp_results.length + (if broke then 1 else 0) := by
  induction msgs with
  | nil =>
      intro s s' broke h
      unfold collectingLoop at h
      cases h
      simp
  | cons m rest ih =>
      intro s s' broke h
      unfold collectingLoop at h
      cases hr : run s m with
      | error e => rw [hr] at h; exact absurd h (by simp)
      | ok p =>
        obtain ⟨s1, status⟩ := p
        rw [hr] at h
        cases status with
        | true =>
            simp only [if_true] at h
            have h1 : s1.cspp_results = s.cspp_results := by
              simpa using run_ok_cspp hr
            have := ih h
            rw [this, h1]
        | false =>
            simp only [Bool.false_eq_true, if_false] at h
            cases h
            have h1 : s'.cspp_results = s.cspp_results ++ [s'.sdr_files] := by
              simpa using run_ok_cspp hr
            simp [h1]

/- ## Claims -/

/-- C1: the claim says a message whose platform is not a recognized VIIRS
satellite (or whose sensor is not "viirs") makes `run` return `True` with no
job submitted.  The code diverges: the platform/sensor filter sits in
`elif msg and ...` branches behind `if msg:`, so it is unreachable for a
truthy message, and this non-VIIRS dataset message is submitted to the pool
with `run` returning `False`. -/
theorem c1_nonviirs_message_is_submitted :
    ∃ s', run (mkProcessor (some "/out") ["af-topic"] "nrk" "test")
            (some { msgType := "dataset"
                    data := { platform_name := some "NOAA-18"
                              sensor := some "avhrr"
                              orbit_number := some 42
                              dataset := some [{ uri := "ssh://host/data/f1.h5"
                                                 uid := "f1.h5" }] } })
          = .ok (s', false) ∧
      s'.cspp_results = [["/data/f1.h5"]] :=
  ⟨_, rfl, rfl⟩

/-- C2 counterexample: an exception raised by the external-program invoker is
*not* converted into an empty-artifact JobResult at the pool boundary — it is
stored in the handle and re-raised by `res.get()` in the control loop's
reaping phase. -/
theorem c2_exception_propagates_to_loop :
    drainResults [spawn_cspp (fun _ => .error (.other "OSError"))
                    (fun _ => .ok ["ignored"]) ["/data/f1.h5"]]
      = .error (.other "OSError") := rfl

/-- C2 amended: `spawn_cspp` has no exception handling, so an exception from
the invoker or the collector propagates unchanged through the job handle and
`res.get()` re-raises it in the control loop; only a successful run is
reported as a JobResult, with zero collected files yielding the empty
artifact list. -/
theorem c2_spawn_cspp_propagation
    (inv : List String → Except PyErr String)
    (col : String → Except PyErr (List String))
    (files : List String) :
    (∀ e, inv files = .error e → spawn_cspp inv col files = .error e) ∧
    (∀ wd e, inv files = .ok wd → col wd = .error e →
        spawn_cspp inv col files = .error e) ∧
    (∀ wd rs, inv files = .ok wd → col wd = .ok rs →
        spawn_cspp inv col files = .ok (wd, rs)) ∧
    (∀ e rest, drainResults (.error e :: rest) = .error e) := by
  refine ⟨?_, ?_, ?_, ?_⟩
  · intro e h
    simp [spawn_cspp, h]
  · intro wd e h1 h2
    simp [spawn_cspp, h1, h2]
  · intro wd rs h1 h2
    simp only [spawn_cspp, h1, h2]
    by_cases hz : rs.length = 0
    · rw [if_pos hz]
      rw [List.length_eq_zero] at hz
      rw [hz]
    · rw [if_neg hz]
  · intro e rest
    rfl

/-- C2 amended, witness at a concrete failing invoker. -/
theorem c2_spawn_cspp_propagation_witness :
    spawn_cspp (fun _ => .error (.other "disk full"))
      (fun _ => .ok []) ["/a.h5"] = .error (.other "disk full") :=
  (c2_spawn_cspp_propagation (fun _ => .error (.other "disk full"))
    (fun _ => .ok []) ["/a.h5"]).1 _ rfl

/-- C4: the claim says a `None` message (subscription-receive timeout) just
causes another pass of the collecting loop.  The code diverges: every guard
of the `if`/`elif` chain is falsy for `None`, control falls through to
`msg.data['platform_name']`, and the `AttributeError` propagates out of the
collecting loop (and hence out of `viirs_active_fire_runner`). -/
theorem c4_none_message_raises :
    (∀ s : ProcState,
      run s none = .error (.attributeError "NoneType object has no attribute data")) ∧
    (∀ (s : ProcState) (rest : List (Option Msg)),
      collectingLoop s (none :: rest) =
        .error (.attributeError "NoneType object has no attribute data")) :=
  ⟨fun _ => rfl, fun _ _ => rfl⟩

/-- C5: with an empty artifact list `publish_af` returns at once: no message
is constructed, none is sent, no exception is raised and the metadata dict is
untouched. -/
theorem c5_publish_af_noop_on_empty
    (get_edr_times : String → Option (DT × DT)) (hostname : String)
    (mda : MsgData) (kwargs : Kwargs) :
    publish_af get_edr_times hostname [] mda kwargs
      = { err := none, constructed := [], sent := [], mda_after := mda } := rfl

/-- C6: for every dataset message with a non-empty dataset list (and the
identification fields every real message carries), `run` submits exactly one
job whose file list is, element by element and in order, the path component
of each dataset entry's URI — scheme and host discarded by
`urlparse(...).path`. -/
theorem c6_submitted_files_are_uri_paths
    (s : ProcState) (m : Msg) (pn sn : String) (ds : List DatasetEntry)
    (hp : m.data.platform_name = some pn) (hs : m.data.sensor = some sn)
    (ht : m.msgType = "dataset") (hd : m.data.dataset = some ds)
    (hne : ds ≠ []) :
    ∃ s', run s (some m) = .ok (s', false) ∧
      s'.sdr_files = ds.map (fun e => urlparsePath e.uri) ∧
      s'.cspp_results = s.cspp_results ++ [ds.map (fun e => urlparsePath e.uri)] := by
  have hlen : ¬ ds.length < 1 := by
    simpa [Nat.lt_one_iff, List.length_eq_zero] using hne
  refine ⟨{ s with
            platform_name := pn
            sensor := some sn
            message_data := some m.data
            sdr_files := ds.map (fun e => urlparsePath e.uri)
            cspp_results := s.cspp_results ++ [ds.map (fun e => urlparsePath e.uri)] },
          ?_, rfl, rfl⟩
  simp only [run, hp, hs, ht, hd]
  rw [if_neg (by simp), if_neg hlen]

/-- C6 witness: scenario A of the spec — a Suomi-NPP dataset message whose
single entry has URI `file:///a/SVM01.h5` yields the submitted file list
`["/a/SVM01.h5"]`. -/
theorem c6_submitted_files_are_uri_paths_witness :
    ∃ s', run sampleProc (some sampleViirsMsg) = .ok (s', false) ∧
      s'.sdr_files = ["/a/SVM01.h5"] ∧
      s'.cspp_results = [["/a/SVM01.h5"]] := by
  obtain ⟨s', h1, h2, h3⟩ :=
    c6_submitted_files_are_uri_paths sampleProc sampleViirsMsg
      "Suomi-NPP" "viirs" [{ uri := "file:///a/SVM01.h5", uid := "SVM01.h5" }]
      rfl rfl rfl rfl (by simp)
  exact ⟨s', h1, by rw [h2]; rfl, by rw [h3]; rfl⟩

/-- C7: per evaluated message, `run` grows the submitted-job list by at most
one, and by exactly one precisely when it returns `False`; in the collecting
loop `False` is exactly what triggers `break` (a `True` status continues with
the remaining messages), so a completed pass of the loop has submitted one
job if it broke and none if the subscription generator was exhausted. -/
theorem c7_one_submission_ends_collecting :
    (∀ (s : ProcState) (m : Option Msg) (s' : ProcState) (b : Bool),
        run s m = .ok (s', b) →
          s'.cspp_results.length ≤ s.cspp_results.length + 1 ∧
          (b = false ↔ s'.cspp_results.length = s.cspp_results.length + 1)) ∧
    (∀ (s : ProcState) (m : Option Msg) (rest : List (Option Msg))
        (s' : ProcState) (b : Bool),
        run s m = .ok (s', b) →
          collectingLoop s (m :: rest) =
            if b then collectingLoop s' rest else .ok (s', true)) ∧
    (∀ (s : ProcState) (msgs : List (Option Msg)) (s' : ProcState) (broke : Bool),
        collectingLoop s msgs = .ok (s', broke) →
          s'.cspp_results.length =
            s.cspp_results.length + (if broke then 1 else 0)) := by
  refine ⟨?_, ?_, ?_⟩
  · intro s m s' b h
    have hc := run_ok_cspp h
    cases b with
    | true =>
        rw [if_pos rfl] at hc
        constructor
        · rw [hc]; omega
        · constructor
          · intro hfalse; exact absurd hfalse (by simp)
          · intro hlen; rw [hc] at hlen; omega
    | false =>
        rw [if_neg (by simp)] at hc
        constructor
        · rw [hc]; simp
        · constructor
          · intro _; rw [hc]; simp
          · intro _; rfl
  · intro s m rest s' b h
    exact collectingLoop_cons h
  · intro s msgs s' broke h
    exact collectingLoop_ok_cspp h

/-- C7 witness: one qualifying message — the loop breaks after it and exactly
one job has been submitted. -/
theorem c7_one_submission_ends_collecting_witness :
    run sampleProc (some sampleViirsMsg) = .ok (sampleProcAfter, false) ∧
    collectingLoop sampleProc [some sampleViirsMsg] = .ok (sampleProcAfter, true) ∧
    sampleProcAfter.cspp_results.length = sampleProc.cspp_results.length + 1 := by
  have hrun : run sampleProc (some sampleViirsMsg) = .ok (sampleProcAfter, false) := rfl
  refine ⟨hrun, ?_, ?_⟩
  · have hloop := c7_one_submission_ends_collecting.2.1 sampleProc
      (some sampleViirsMsg) [] sampleProcAfter false hrun
    simpa using hloop
  · exact (c7_one_submission_ends_collecting.1 sampleProc (some sampleViirsMsg)
      sampleProcAfter false hrun).2.mp rfl

/-- C9: `publish_af` works on `to_send = mda.copy()` and every later update
targets the copy, so whatever branch is taken — early return, `KeyError` on
the orbit remap, `get_edr_times` failure or a successful publish — the
caller's `mda` dict is unchanged after the call. -/
theorem c9_publish_af_never_mutates_mda
    (get_edr_times : String → Option (DT × DT)) (hostname : String)
    (result_files : List String) (mda : MsgData) (kwargs : Kwargs) :
    (publish_af get_edr_times hostname result_files mda kwargs).mda_after = mda := by
  unfold publish_af
  dsimp only
  repeat' split
  all_goals rfl

theorem publish_af_sent_payload
    (ed : String → Option (DT × DT)) (host : String) (rf : List String)
    (mda : MsgData) (kw : Kwargs) (orb : Int) (m : OutMsg)
    (ho : kw.orbit = some orb)
    (hm : m ∈ (publish_af ed host rf mda kw).sent) :
    m.payload.orbit_number = some orb ∧
    m.payload.orig_orbit_number = mda.orbit_number := by
  unfold publish_af at hm
  dsimp only at hm
  by_cases h0 : rf.isEmpty
  · rw [if_pos h0] at hm
    simp at hm
  · rw [if_neg h0] at hm
    simp only [ho] at hm
    cases hon : mda.orbit_number with
    | none =>
        simp only [hon] at hm
        simp at hm
    | some orig =>
        simp only [hon] at hm
        cases hl : rf.getLast? with
        | none => simp only [hl] at hm; simp at hm
        | some lastf =>
          simp only [hl] at hm
          cases he : ed (basename lastf) with
          | none => simp only [he] at hm; simp at hm
          | some ts =>
            obtain ⟨st, et⟩ := ts
            simp only [he] at hm
            rw [List.getLast?_map] at hm
            cases hgl : (kw.publish_topic.getD unknownTopicDefault).getLast? with
            | none => simp only [hgl, Option.map_none'] at hm; simp at hm
            | some tl =>
                simp only [hgl, Option.map_some'] at hm
                rw [List.mem_singleton] at hm
                subst hm
                exact ⟨rfl, rfl⟩

/-- C10: the processor's orbit number is initialised to the constant 1, is
preserved by `initialise` and by every successful `run`, and the draining
phase passes it as the `orbit` keyword to `publish_af`, which saves the
message's own orbit under `orig_orbit_number` and overwrites `orbit_number`
with the passed value — so every notification the runner publishes carries
`orbit_number = 1`. -/
theorem c10_published_orbit_number_is_one :
    (∀ (rh : Option String) (pt : List String) (site env : String),
        (mkProcessor rh pt site env).orbit_number = 1) ∧
    (∀ s : ProcState, (initialise s).orbit_number = s.orbit_number) ∧
    (∀ (s : ProcState) (m : Option Msg) (s' : ProcState) (b : Bool),
        run s m = .ok (s', b) → s'.orbit_number = s.orbit_number) ∧
    (∀ (ed : String → Option (DT × DT)) (host : String) (proc : ProcState)
        (rf : List String) (mda : MsgData) (m : OutMsg),
        proc.orbit_number = 1 →
        m ∈ (runnerPublishCall ed host proc rf mda).sent →
        m.payload.orbit_number = some 1 ∧
        m.payload.orig_orbit_number = mda.orbit_number) := by
  refine ⟨fun _ _ _ _ => rfl, fun _ => rfl,
          fun s m s' b h => run_ok_orbit h, ?_⟩
  intro ed host proc rf mda m h1 hm
  unfold runnerPublishCall at hm
  have hres := publish_af_sent_payload ed host rf mda _ proc.orbit_number m rfl hm
  rw [h1] at hres
  exact hres

/-- C10 witness: a concrete reaped job of the `sampleViirsMsg` granule
(message orbit 42) is published with `orbit_number = 1` and
`orig_orbit_number = 42`. -/
theorem c10_published_orbit_number_is_one_witness :
    sampleProc.orbit_number = 1 ∧
    sampleSentMsg ∈ (runnerPublishCall sampleEdrTimes "afhost" sampleProc
        ["/tmp/afwork/AFIMG_npp.txt"] sampleViirsMsg.data).sent ∧
    sampleSentMsg.payload.orbit_number = some 1 ∧
    sampleSentMsg.payload.orig_orbit_number = sampleViirsMsg.data.orbit_number := by
  have hmem : sampleSentMsg ∈ (runnerPublishCall sampleEdrTimes "afhost" sampleProc
      ["/tmp/afwork/AFIMG_npp.txt"] sampleViirsMsg.data).sent := by decide
  have hres := c10_published_orbit_number_is_one.2.2.2 sampleEdrTimes "afhost"
    sampleProc ["/tmp/afwork/AFIMG_npp.txt"] sampleViirsMsg.data sampleSentMsg rfl hmem
  exact ⟨rfl, hmem, hres.1, hres.2⟩

/-- C3: with a non-empty artifact list and several publish topics (and the
metadata any real message carries, so the orbit remap and timestamp lookup
succeed), the topic loop builds one message per topic but the single
`publisher.send(msg)` after the loop sends only the value `msg` was last
rebound to: exactly one send occurs and it is the last-constructed message. -/
theorem c3_only_last_topic_message_sent
    (ed : String → Option (DT × DT)) (host : String) (rf : List String)
    (mda : MsgData) (kw : Kwargs) (topics : List String) (orig : Int)
    (st et : DT) (hrf : rf ≠ [])
    (ht : kw.publish_topic = some topics)
    (h2 : 2 ≤ topics.length)
    (hon : mda.orbit_number = some orig)
    (hed : ed (basename (rf.getLast hrf)) = some (st, et)) :
    (publish_af ed host rf mda kw).err = none ∧
    (publish_af ed host rf mda kw).constructed.length = topics.length ∧
    (publish_af ed host rf mda kw).sent
      = ((publish_af ed host rf mda kw).constructed.getLast?).toList ∧
    (publish_af ed host rf mda kw).sent.length = 1 := by
  have h0 : rf.isEmpty = false := by
    cases rf with
    | nil => exact absurd rfl hrf
    | cons a l => rfl
  have hgl : rf.getLast? = some (rf.getLast hrf) :=
    List.getLast?_eq_getLast_of_ne_nil hrf
  have htne : topics ≠ [] := by
    intro hc
    rw [hc] at h2
    simp at h2
  have hglt : topics.getLast? = some (topics.getLast htne) :=
    List.getLast?_eq_getLast_of_ne_nil htne
  unfold publish_af
  dsimp only
  rw [h0]
  cases ho : kw.orbit with
  | none =>
      simp only [Bool.false_eq_true, if_false, ht, Option.getD_some, hgl, hed,
                 List.getLast?_map, hglt, Option.map_some']
      refine ⟨?_, ?_, ?_, ?_⟩ <;> simp [List.getLast?_map, hglt]
  | some orb =>
      simp only [Bool.false_eq_true, if_false, hon, ht, Option.getD_some, hgl, hed,
                 List.getLast?_map, hglt, Option.map_some']
      refine ⟨?_, ?_, ?_, ?_⟩ <;> simp [List.getLast?_map, hglt]

/-- C3 witness: two topics, one delivered artifact — two messages built, one
(the second topic's) sent. -/
theorem c3_only_last_topic_message_sent_witness :
    ((["/a/x.txt"] : List String) ≠ []) ∧
    (2 ≤ (["t1", "t2"] : List String).length) ∧
    ((publish_af sampleEdrTimes "h" ["/a/x.txt"] sampleViirsMsg.data
        { orbit := some 1, publish_topic := some ["t1", "t2"], site := some "s",
          environment := some "e" }).err = none ∧
     (publish_af sampleEdrTimes "h" ["/a/x.txt"] sampleViirsMsg.data
        { orbit := some 1, publish_topic := some ["t1", "t2"], site := some "s",
          environment := some "e" }).constructed.length
        = (["t1", "t2"] : List String).length ∧
     (publish_af sampleEdrTimes "h" ["/a/x.txt"] sampleViirsMsg.data
        { orbit := some 1, publish_topic := some ["t1", "t2"], site := some "s",
          environment := some "e" }).sent
        = ((publish_af sampleEdrTimes "h" ["/a/x.txt"] sampleViirsMsg.data
            { orbit := some 1, publish_topic := some ["t1", "t2"], site := some "s",
              environment := some "e" }).constructed.getLast?).toList ∧
     (publish_af sampleEdrTimes "h" ["/a/x.txt"] sampleViirsMsg.data
        { orbit := some 1, publish_topic := some ["t1", "t2"], site := some "s",
          environment := some "e" }).sent.length = 1) :=
  ⟨by decide, by decide,
   c3_only_last_topic_message_sent sampleEdrTimes "h" ["/a/x.txt"]
     sampleViirsMsg.data
     { orbit := some 1, publish_topic := some ["t1", "t2"], site := some "s",
       environment := some "e" }
     ["t1", "t2"] 42 ⟨2021, 4, 13, 9, 16, 18⟩ ⟨2021, 4, 13, 9, 17, 42⟩
     (by decide) rfl (by decide) rfl rfl⟩

/- ## Lemmas about the filename grammar (claim C8) -/

theorem splitCh_ne_nil (c : Char) (l : List Char) : splitCh c l ≠ [] := by
  induction l with
  | nil => simp [splitCh]
  | cons x xs ih =>
    unfold splitCh
    cases hs : splitCh c xs with
    | nil => simp
    | cons h t => by_cases hxc : x = c <;> simp [hxc]

theorem splitCh_cons_self (c : Char) (l : List Char) :
    splitCh c (c :: l) = [] :: splitCh c l := by
  conv_lhs => rw [splitCh]
  cases hs : splitCh c l with
  | nil => exact absurd hs (splitCh_ne_nil c l)
  | cons h t => simp

theorem splitCh_append_cons {c : Char} {l : List Char} {h : List Char}
    {t : List (List Char)} :
    ∀ (x : List Char), c ∉ x → splitCh c l = h :: t →
      splitCh c (x ++ l) = (x ++ h) :: t := by
  intro x
  induction x with
  | nil => intro _ hl; simpa using hl
  | cons a x ih =>
    intro hx hl
    have hac : a ≠ c := by
      intro hc
      exact hx (by simp [hc])
    have hrec := ih (fun hm => hx (List.mem_cons_of_mem a hm)) hl
    show splitCh c (a :: (x ++ l)) = _
    unfold splitCh
    rw [hrec]
    simp [hac]

theorem splitCh_of_not_mem {c : Char} {x : List Char} (hx : c ∉ x) :
    splitCh c x = [x] := by
  have h0 : splitCh c ([] : List Char) = [] :: [] := rfl
  have := splitCh_append_cons x hx h0
  simpa using this

theorem splitCh_joinCh {c : Char} :
    ∀ (ts : List (List Char)), ts ≠ [] → (∀ t ∈ ts, c ∉ t) →
      splitCh c (joinCh c ts) = ts := by
  intro ts
  induction ts with
  | nil => intro h; exact absurd rfl h
  | cons t ts ih =>
    intro _ hmem
    cases ts with
    | nil => simpa [joinCh] using splitCh_of_not_mem (hmem t (by simp))
    | cons t2 ts2 =>
      have hrec := ih (by simp) (fun u hu => hmem u (List.mem_cons_of_mem t hu))
      have h2 : splitCh c (c :: joinCh c (t2 :: ts2)) = [] :: t2 :: ts2 := by
        rw [splitCh_cons_self, hrec]
      have h3 := splitCh_append_cons t (hmem t (by simp)) h2
      show splitCh c (t ++ c :: joinCh c (t2 :: ts2)) = _
      rw [h3]
      simp

theorem mem_joinCh {c a : Char} :
    ∀ {ts : List (List Char)}, a ∈ joinCh c ts → a = c ∨ ∃ t ∈ ts, a ∈ t := by
  intro ts
  induction ts with
  | nil => intro h; simp [joinCh] at h
  | cons t ts ih =>
    intro hm
    cases ts with
    | nil =>
        simp only [joinCh] at hm
        exact Or.inr ⟨t, by simp, hm⟩
    | cons t2 ts2 =>
        simp only [joinCh, List.mem_append, List.mem_cons] at hm
        rcases hm with hm | hm | hm
        · exact Or.inr ⟨t, by simp, hm⟩
        · exact Or.inl hm
        · rcases ih hm with h | ⟨u, hu, hau⟩
          · exact Or.inl h
          · exact Or.inr ⟨u, List.mem_cons_of_mem t hu, hau⟩

theorem toDigits_lt {w n : Nat} : ∀ d ∈ toDigits w n, d < 10 := by
  induction w generalizing n with
  | zero => intro d hd; simp [toDigits] at hd
  | succ w ih =>
    intro d hd
    simp only [toDigits, List.mem_append, List.mem_singleton] at hd
    rcases hd with hd | hd
    · exact ih d hd
    · subst hd; exact Nat.mod_lt _ (by norm_num)

theorem length_toDigits (w n : Nat) : (toDigits w n).length = w := by
  induction w generalizing n with
  | zero => rfl
  | succ w ih => simp [toDigits, ih]

theorem length_pad (w n : Nat) : (pad w n).length = w := by
  simp [pad, length_toDigits]

theorem digitChar_isDigit (d : Nat) : (digitChar d).isDigit = true := by
  unfold digitChar
  split <;> decide

theorem digitChar_ne_underscore (d : Nat) : digitChar d ≠ '_' := by
  unfold digitChar
  split <;> decide

theorem digitChar_ne_slash (d : Nat) : digitChar d ≠ '/' := by
  unfold digitChar
  split <;> decide

theorem toNat_digitChar {d : Nat} (hd : d < 10) : (digitChar d).toNat - 48 = d := by
  interval_cases d <;> decide

theorem not_mem_pad_underscore (w n : Nat) : '_' ∉ pad w n := by
  intro hm
  simp only [pad, List.mem_map] at hm
  obtain ⟨d, _, hd⟩ := hm
  exact digitChar_ne_underscore d hd

theorem not_mem_pad_slash (w n : Nat) : '/' ∉ pad w n := by
  intro hm
  simp only [pad, List.mem_map] at hm
  obtain ⟨d, _, hd⟩ := hm
  exact digitChar_ne_slash d hd

theorem foldl_toDigits (w : Nat) :
    ∀ (n a : Nat), n < 10 ^ w →
      (toDigits w n).foldl (fun acc d => acc * 10 + d) a = a * 10 ^ w + n := by
  induction w with
  | zero =>
    intro n a h
    have : n = 0 := by omega
    subst this
    simp [toDigits]
  | succ w ih =>
    intro n a h
    have hdiv : n / 10 < 10 ^ w := by
      rw [Nat.div_lt_iff_lt_mul (by norm_num)]
      calc n < 10 ^ (w + 1) := h
        _ = 10 ^ w * 10 := by rw [pow_succ]
    show ((toDigits w (n / 10)) ++ [n % 10]).foldl (fun acc d => acc * 10 + d) a = _
    rw [List.foldl_append, ih (n / 10) a hdiv]
    show (a * 10 ^ w + n / 10) * 10 + n % 10 = a * 10 ^ (w + 1) + n
    calc (a * 10 ^ w + n / 10) * 10 + n % 10
        = a * (10 ^ w * 10) + (10 * (n / 10) + n % 10) := by ring
      _ = a * 10 ^ (w + 1) + n := by rw [Nat.div_add_mod, pow_succ]

theorem foldl_map_digitChar :
    ∀ (ds : List Nat), (∀ d ∈ ds, d < 10) → ∀ (a : Nat),
      (ds.map digitChar).foldl (fun acc c => acc * 10 + (c.toNat - 48)) a
        = ds.foldl (fun acc d => acc * 10 + d) a := by
  intro ds
  induction ds with
  | nil => intro _ a; rfl
  | cons d ds ih =>
    intro h a
    simp only [List.map_cons, List.foldl_cons]
    rw [toNat_digitChar (h d (by simp))]
    exact ih (fun u hu => h u (List.mem_cons_of_mem d hu)) _

theorem parseDigits_pad {w n : Nat} (hw : 0 < w) (h : n < 10 ^ w) :
    parseDigits (pad w n) = some n := by
  unfold parseDigits
  have hlen : (pad w n).length = w := length_pad w n
  have hne : (pad w n).isEmpty = false := by
    cases hp : pad w n with
    | nil => rw [hp] at hlen; simp at hlen; omega
    | cons a l => rfl
  have hall : (pad w n).all Char.isDigit = true := by
    rw [List.all_eq_true]
    intro c hc
    simp only [pad, List.mem_map] at hc
    obtain ⟨d, _, rfl⟩ := hc
    exact digitChar_isDigit d
  rw [hne, hall]
  simp only [Bool.not_false, Bool.true_and, if_true]
  rw [show (pad w n) = (toDigits w n).map digitChar from rfl]
  rw [foldl_map_digitChar (toDigits w n) (fun d hd => toDigits_lt d hd) 0]
  rw [foldl_toDigits w n 0 h]
  simp

theorem takeWhile_all_eq {p : Char → Bool} :
    ∀ (m : List Char), (∀ c ∈ m, p c = true) → m.takeWhile p = m := by
  intro m
  induction m with
  | nil => intro _; rfl
  | cons a l ih =>
    intro h
    rw [List.takeWhile_cons, h a (by simp)]
    simp [ih (fun c hc => h c (List.mem_cons_of_mem a hc))]

theorem basename_no_slash {l : List Char} (h : '/' ∉ l) :
    basename (String.mk l) = String.mk l := by
  unfold basename
  have hdata : (String.mk l).data = l := rfl
  rw [hdata]
  rw [takeWhile_all_eq l.reverse ?hall]
  · rw [List.reverse_reverse]
  case hall =>
    intro c hc
    rw [List.mem_reverse] at hc
    have : c ≠ '/' := fun hcc => h (hcc ▸ hc)
    simpa using this

theorem string_data_mk (l : List Char) : (String.mk l).data = l := rfl

/-- C8: for every artifact filename in the fixed grammar — `_`-separated
tokens whose third, fourth and fifth are `d`+YYYYMMDD, `t`+HHMMSS+tenths and
`e`+HHMMSS+tenths with both times on the encoded date — `get_edr_times`
returns exactly the encoded start and end times (tenths discarded); in
particular the repository test's filename yields
(2021-04-13 09:16:18, 2021-04-13 09:17:42). -/
theorem c8_get_edr_times_roundtrip :
    (∀ (pfx sat : List Char) (t1 t2 : DT) (f1 f2 : Nat) (rest : List (List Char)),
      '_' ∉ pfx → '_' ∉ sat → (∀ t ∈ rest, '_' ∉ t) →
      '/' ∉ pfx → '/' ∉ sat → (∀ t ∈ rest, '/' ∉ t) →
      t2.year = t1.year → t2.month = t1.month → t2.day = t1.day →
      t1.year < 10000 → t1.month < 100 → t1.day < 100 →
      t1.hour < 100 → t1.minute < 100 → t1.second < 100 → f1 < 10 →
      t2.hour < 100 → t2.minute < 100 → t2.second < 100 → f2 < 10 →
      get_edr_times (mkAFFilename pfx sat t1 t2 f1 f2 rest) = some (t1, t2)) ∧
    get_edr_times
        "AFIMG_npp_d20210413_t0916186_e0917428_b49018_c20210413092919781783_cspp_dev.txt"
      = some (⟨2021, 4, 13, 9, 16, 18⟩, ⟨2021, 4, 13, 9, 17, 42⟩) := by
  constructor
  · intro pfx sat t1 t2 f1 f2 rest hu1 hu2 hu3 hv1 hv2 hv3 hy hmo hdy
      hb1 hb2 hb3 hb4 hb5 hb6 hb7 hb8 hb9 hb10 hb11
    have hud : '_' ∉ 'd' :: (pad 4 t1.year ++ (pad 2 t1.month ++ pad 2 t1.day)) := by
      simp [not_mem_pad_underscore]
    have hut : '_' ∉ 't' :: (pad 2 t1.hour ++ (pad 2 t1.minute ++
        (pad 2 t1.second ++ pad 1 f1))) := by
      simp [not_mem_pad_underscore]
    have hue : '_' ∉ 'e' :: (pad 2 t2.hour ++ (pad 2 t2.minute ++
        (pad 2 t2.second ++ pad 1 f2))) := by
      simp [not_mem_pad_underscore]
    have hvd : '/' ∉ 'd' :: (pad 4 t1.year ++ (pad 2 t1.month ++ pad 2 t1.day)) := by
      simp [not_mem_pad_slash]
    have hvt : '/' ∉ 't' :: (pad 2 t1.hour ++ (pad 2 t1.minute ++
        (pad 2 t1.second ++ pad 1 f1))) := by
      simp [not_mem_pad_slash]
    have hve : '/' ∉ 'e' :: (pad 2 t2.hour ++ (pad 2 t2.minute ++
        (pad 2 t2.second ++ pad 1 f2))) := by
      simp [not_mem_pad_slash]
    have htoku : ∀ t ∈ ([pfx, sat,
        'd' :: (pad 4 t1.year ++ (pad 2 t1.month ++ pad 2 t1.day)),
        't' :: (pad 2 t1.hour ++ (pad 2 t1.minute ++ (pad 2 t1.second ++ pad 1 f1))),
        'e' :: (pad 2 t2.hour ++ (pad 2 t2.minute ++ (pad 2 t2.second ++ pad 1 f2)))]
        ++ rest), '_' ∉ t := by
      intro t ht
      rcases List.mem_append.mp ht with h | h
      · simp only [List.mem_cons, List.mem_singleton] at h
        rcases h with rfl | rfl | rfl | rfl | rfl | h
        · exact hu1
        · exact hu2
        · exact hud
        · exact hut
        · exact hue
        · simp at h
      · exact hu3 t h
    have htokv : ∀ t ∈ ([pfx, sat,
        'd' :: (pad 4 t1.year ++ (pad 2 t1.month ++ pad 2 t1.day)),
        't' :: (pad 2 t1.hour ++ (pad 2 t1.minute ++ (pad 2 t1.second ++ pad 1 f1))),
        'e' :: (pad 2 t2.hour ++ (pad 2 t2.minute ++ (pad 2 t2.second ++ pad 1 f2)))]
        ++ rest), '/' ∉ t := by
      intro t ht
      rcases List.mem_append.mp ht with h | h
      · simp only [List.mem_cons, List.mem_singleton] at h
        rcases h with rfl | rfl | rfl | rfl | rfl | h
        · exact hv1
        · exact hv2
        · exact hvd
        · exact hvt
        · exact hve
        · simp at h
      · exact hv3 t h
    have hslash : '/' ∉ joinCh '_' ([pfx, sat,
        'd' :: (pad 4 t1.year ++ (pad 2 t1.month ++ pad 2 t1.day)),
        't' :: (pad 2 t1.hour ++ (pad 2 t1.minute ++ (pad 2 t1.second ++ pad 1 f1))),
        'e' :: (pad 2 t2.hour ++ (pad 2 t2.minute ++ (pad 2 t2.second ++ pad 1 f2)))]
        ++ rest) := by
      intro hm
      rcases mem_joinCh hm with h | ⟨t, ht, hmt⟩
      · exact absurd h (by decide)
      · exact htokv t ht hmt
    have hsplit : splitCh '_' (joinCh '_' ([pfx, sat,
        'd' :: (pad 4 t1.year ++ (pad 2 t1.month ++ pad 2 t1.day)),
        't' :: (pad 2 t1.hour ++ (pad 2 t1.minute ++ (pad 2 t1.second ++ pad 1 f1))),
        'e' :: (pad 2 t2.hour ++ (pad 2 t2.minute ++ (pad 2 t2.second ++ pad 1 f2)))]
        ++ rest))
        = pfx :: sat ::
          ('d' :: (pad 4 t1.year ++ (pad 2 t1.month ++ pad 2 t1.day))) ::
          ('t' :: (pad 2 t1.hour ++ (pad 2 t1.minute ++ (pad 2 t1.second ++ pad 1 f1)))) ::
          ('e' :: (pad 2 t2.hour ++ (pad 2 t2.minute ++ (pad 2 t2.second ++ pad 1 f2)))) ::
          rest := by
      rw [splitCh_joinCh _ (by simp) htoku]
      simp
    unfold mkAFFilename get_edr_times
    rw [basename_no_slash hslash, string_data_mk, hsplit]
    dsimp only [List.head?, List.tail]
    rw [if_pos ⟨rfl, rfl, rfl⟩]
    have hd1 : (pad 4 t1.year ++ (pad 2 t1.month ++ pad 2 t1.day)).take 4
        = pad 4 t1.year := List.take_left' (length_pad 4 t1.year)
    have hd2 : (pad 4 t1.year ++ (pad 2 t1.month ++ pad 2 t1.day)).drop 4
        = pad 2 t1.month ++ pad 2 t1.day := List.drop_left' (length_pad 4 t1.year)
    have hd3 : ((pad 4 t1.year ++ (pad 2 t1.month ++ pad 2 t1.day)).drop 4).take 2
        = pad 2 t1.month := by
      rw [hd2]; exact List.take_left' (length_pad 2 t1.month)
    have hd4 : (pad 4 t1.year ++ (pad 2 t1.month ++ pad 2 t1.day)).drop 6
        = pad 2 t1.day := by
      rw [show pad 4 t1.year ++ (pad 2 t1.month ++ pad 2 t1.day)
            = (pad 4 t1.year ++ pad 2 t1.month) ++ pad 2 t1.day from
          by rw [List.append_assoc]]
      exact List.drop_left' (by simp [length_pad])
    have hd5 : ((pad 4 t1.year ++ (pad 2 t1.month ++ pad 2 t1.day)).drop 6).take 2
        = pad 2 t1.day := by
      rw [hd4]; exact List.take_of_length_le (le_of_eq (length_pad 2 t1.day))
    have hs1 : (pad 2 t1.hour ++ (pad 2 t1.minute ++ (pad 2 t1.second ++ pad 1 f1))).take 2
        = pad 2 t1.hour := List.take_left' (length_pad 2 t1.hour)
    have hs2 : ((pad 2 t1.hour ++ (pad 2 t1.minute ++ (pad 2 t1.second ++ pad 1 f1))).drop 2).take 2
        = pad 2 t1.minute := by
      rw [List.drop_left' (length_pad 2 t1.hour)]
      exact List.take_left' (length_pad 2 t1.minute)
    have hs3 : ((pad 2 t1.hour ++ (pad 2 t1.minute ++ (pad 2 t1.second ++ pad 1 f1))).drop 4).take 2
        = pad 2 t1.second := by
      rw [show pad 2 t1.hour ++ (pad 2 t1.minute ++ (pad 2 t1.second ++ pad 1 f1))
            = (pad 2 t1.hour ++ pad 2 t1.minute) ++ (pad 2 t1.second ++ pad 1 f1) from
          by rw [List.append_assoc]]
      rw [List.drop_left' (by simp [length_pad])]
      exact List.take_left' (length_pad 2 t1.second)
    have he1 : (pad 2 t2.hour ++ (pad 2 t2.minute ++ (pad 2 t2.second ++ pad 1 f2))).take 2
        = pad 2 t2.hour := List.take_left' (length_pad 2 t2.hour)
    have he2 : ((pad 2 t2.hour ++ (pad 2 t2.minute ++ (pad 2 t2.second ++ pad 1 f2))).drop 2).take 2
        = pad 2 t2.minute := by
      rw [List.drop_left' (length_pad 2 t2.hour)]
      exact List.take_left' (length_pad 2 t2.minute)
    have he3 : ((pad 2 t2.hour ++ (pad 2 t2.minute ++ (pad 2 t2.second ++ pad 1 f2))).drop 4).take 2
        = pad 2 t2.second := by
      rw [show pad 2 t2.hour ++ (pad 2 t2.minute ++ (pad 2 t2.second ++ pad 1 f2))
            = (pad 2 t2.hour ++ pad 2 t2.minute) ++ (pad 2 t2.second ++ pad 1 f2) from
          by rw [List.append_assoc]]
      rw [List.drop_left' (by simp [length_pad])]
      exact List.take_left' (length_pad 2 t2.second)
    rw [hd1, hd3, hd5, hs1, hs2, hs3, he1, he2, he3]
    rw [parseDigits_pad (by norm_num) (show t1.year < 10 ^ 4 by norm_num; omega),
        parseDigits_pad (by norm_num) (show t1.month < 10 ^ 2 by norm_num; omega),
        parseDigits_pad (by norm_num) (show t1.day < 10 ^ 2 by norm_num; omega),
        parseDigits_pad (by norm_num) (show t1.hour < 10 ^ 2 by norm_num; omega),
        parseDigits_pad (by norm_num) (show t1.minute < 10 ^ 2 by norm_num; omega),
        parseDigits_pad (by norm_num) (show t1.second < 10 ^ 2 by norm_num; omega),
        parseDigits_pad (by norm_num) (show t2.hour < 10 ^ 2 by norm_num; omega),
        parseDigits_pad (by norm_num) (show t2.minute < 10 ^ 2 by norm_num; omega),
        parseDigits_pad (by norm_num) (show t2.second < 10 ^ 2 by norm_num; omega)]
    simp only [Option.bind_eq_bind, Option.some_bind, Option.pure_def,
               Option.some.injEq, Prod.mk.injEq]
    refine ⟨trivial, ?_⟩
    obtain ⟨y2, mo2, d2, hh2, mm2, ss2⟩ := t2
    dsimp only at hy hmo hdy
    rw [hy, hmo, hdy]
  · decide

/-- C8 witness: the general round trip applied to the concrete components of
the repository test's filename (minus the fixed creation-time token). -/
theorem c8_get_edr_times_roundtrip_witness :
    get_edr_times (mkAFFilename "AFIMG".data "npp".data
        ⟨2021, 4, 13, 9, 16, 18⟩ ⟨2021, 4, 13, 9, 17, 42⟩ 6 8
        ["b49018".data, "cspp".data, "dev.txt".data])
      = some (⟨2021, 4, 13, 9, 16, 18⟩, ⟨2021, 4, 13, 9, 17, 42⟩) :=
  c8_get_edr_times_roundtrip.1 "AFIMG".data "npp".data
    ⟨2021, 4, 13, 9, 16, 18⟩ ⟨2021, 4, 13, 9, 17, 42⟩ 6 8
    ["b49018".data, "cspp".data, "dev.txt".data]
    (by decide) (by decide) (by decide) (by decide) (by decide) (by decide)
    rfl rfl rfl
    (by decide) (by decide) (by decide) (by decide) (by decide) (by decide)
    (by decide) (by decide) (by decide) (by decide) (by decide)

end ActiveFires
